import Mathlib

/-!
Shallow embedding of the `stockpnltracker` backend (Python, FastAPI) in Lean 4.

Source files embedded:
* `backend/app/cache.py`        — `TTLCache` (bounded TTL cache over an `OrderedDict`)
* `backend/app/nse_client.py`   — NSE client: session handling (`_get_client`),
  `search_nse_symbol`, `fetch_nse_price` (retry loop), `COMMON_NAMES_TO_SYMBOL`,
  `resolve_symbol_locally`
* `backend/app/yahoo_client.py` — Yahoo client: `search_nse_symbol` (NSE-only filter),
  `_fetch_ltp_sync` / `fetch_ltp`
* `backend/app/main.py`         — routes `search_stock` and `get_price`

The Python `time.time()` clock is modelled by explicit `Nat` timestamps passed to each
operation; network behaviour is modelled by explicit oracles (one response per
request); a raised Python exception is `Except.error ()`, and `try/except` is an
an explicit match on the outcome of the body.
-/

namespace StockPnl

/-! ### Ordered association lists: the model of the Python `OrderedDict`

`OrderedDict` keys are unique and the list keeps insertion order.
`lookupKey` is `d.get(k)`, `eraseKey` is `d.pop(k, None)`, and `odSet` is
`d[k] = v` (update in place when present, append when absent).
-/

def lookupKey {V : Type} : List (String × V) → String → Option V
  | [], _ => none
  | (k0, e) :: rest, k => if k0 = k then some e else lookupKey rest k

def eraseKey {V : Type} : List (String × V) → String → List (String × V)
  | [], _ => []
  | (k0, e) :: rest, k => if k0 = k then eraseKey rest k else (k0, e) :: eraseKey rest k

def odUpdate {V : Type} : List (String × V) → String → V → List (String × V)
  | [], _, _ => []
  | (k0, e) :: rest, k, v =>
    if k0 = k then (k, v) :: odUpdate rest k v else (k0, e) :: odUpdate rest k v

def odSet {V : Type} (l : List (String × V)) (k : String) (v : V) : List (String × V) :=
  if (lookupKey l k).isSome then odUpdate l k v else l ++ [(k, v)]

/-! ### Python string primitives

The built-in `String.trim`/`toLower`/… do not reduce inside the kernel,
so the Python string methods used by the sources are modelled directly over
`String.data` (`List Char`).  All inputs of interest are ASCII, where these
agree with the Python `str.strip`, `str.lower`, `str.upper`, `str.endswith`
and `str.replace`.
-/

/-- Python `str.isspace` characters (ASCII): space, `\t`, `\n`, `\r`, `\v`, `\f`. -/
def pyIsSpace (ch : Char) : Bool :=
  (ch == ' ') || (ch == '\t') || (ch == '\n') || (ch == '\r')
    || (ch == Char.ofNat 11) || (ch == Char.ofNat 12)

/-- Model of `s.strip()` — drop whitespace from both ends. -/
def pyStrip (s : String) : String :=
  ⟨((s.data.dropWhile pyIsSpace).reverse.dropWhile pyIsSpace).reverse⟩

def asciiLowerChar (ch : Char) : Char :=
  if 65 ≤ ch.toNat && ch.toNat ≤ 90 then Char.ofNat (ch.toNat + 32) else ch

def asciiUpperChar (ch : Char) : Char :=
  if 97 ≤ ch.toNat && ch.toNat ≤ 122 then Char.ofNat (ch.toNat - 32) else ch

/-- Model of `s.lower()` (ASCII). -/
def pyLower (s : String) : String := ⟨s.data.map asciiLowerChar⟩

/-- Model of `s.upper()` (ASCII). -/
def pyUpper (s : String) : String := ⟨s.data.map asciiUpperChar⟩

/-- Model of `s.endswith(suffix)`. -/
def pyEndsWith (s suffix : String) : Bool := suffix.data.isSuffixOf s.data

/-- Left-to-right, non-overlapping replacement; the fuel argument (length of
the remaining input plus one) only makes the recursion structural and is
never exhausted for the non-empty patterns the sources use. -/
def replaceGo (pat rep : List Char) : Nat → List Char → List Char
  | 0, l => l
  | _ + 1, [] => []
  | fuel + 1, c :: rest =>
    if pat.isPrefixOf (c :: rest) then
      rep ++ replaceGo pat rep fuel ((c :: rest).drop pat.length)
    else c :: replaceGo pat rep fuel rest

/-- Model of `s.replace(pat, rep)`. -/
def pyReplace (s pat rep : String) : String :=
  ⟨replaceGo pat.data rep.data (s.data.length + 1) s.data⟩


/-! ### `TTLCache` — backend/app/cache.py

```python
class TTLCache:
    def __init__(self, ttl_seconds: int = 30, max_items: int = 256):
        self.ttl = ttl_seconds
        self.max_items = max_items
        self._store: OrderedDict[str, tuple[Any, float]] = OrderedDict()

    def get(self, key):
        item = self._store.get(key)
        if not item:
            return None
        value, ts = item
        if time.time() - ts > self.ttl:
            self._store.pop(key, None)
            return None
        return value

    def set(self, key, value):
        if len(self._store) >= self.max_items:
            self._store.popitem(last=False)
        self._store[key] = (value, time.time())
```

`time.time() - ts > self.ttl` is rendered as `ts + ttl < now` (equivalent over
the integers, with no truncation).  `popitem(last=False)` on an empty
`OrderedDict` raises `KeyError`; that is the `Except.error` case of `set`
(reachable only when `max_items ≤ 0`).
-/

structure TTLCache (V : Type) where
  ttl : Nat
  maxItems : Nat
  store : List (String × V × Nat)
deriving DecidableEq

def TTLCache.get {V : Type} (c : TTLCache V) (key : String) (now : Nat) :
    Option V × TTLCache V :=
  match lookupKey c.store key with
  | none => (none, c)
  | some (v, ts) =>
    if ts + c.ttl < now then (none, { c with store := eraseKey c.store key })
    else (some v, c)

def TTLCache.set {V : Type} (c : TTLCache V) (key : String) (v : V) (now : Nat) :
    Except Unit (TTLCache V) :=
  if c.maxItems ≤ c.store.length then
    match c.store with
    | [] => .error ()
    | _ :: tail => .ok { c with store := odSet tail key (v, now) }
  else .ok { c with store := odSet c.store key (v, now) }

def TTLCache.setSeq {V : Type} (c : TTLCache V) :
    List (String × V × Nat) → Except Unit (TTLCache V)
  | [] => .ok c
  | (k, v, t) :: rest =>
    match TTLCache.set c k v t with
    | .ok c2 => TTLCache.setSeq c2 rest
    | .error e => .error e


deriving instance DecidableEq for Except

inductive HttpOutcome (B : Type) where
  | raise
  | status (code : Nat) (body : Except Unit B)
deriving DecidableEq

namespace NseClient

/-! ### backend/app/nse_client.py -/

/-- The static alias table `COMMON_NAMES_TO_SYMBOL`, in source order. -/
def COMMON_NAMES_TO_SYMBOL : List (String × String) :=
  [("tcs", "TCS"),
   ("tata consultancy", "TCS"),
   ("tata consultancy services", "TCS"),
   ("infosys", "INFY"),
   ("infy", "INFY"),
   ("reliance", "RELIANCE"),
   ("reliance industries", "RELIANCE"),
   ("hdfc bank", "HDFCBANK"),
   ("hdfcbank", "HDFCBANK"),
   ("icici bank", "ICICIBANK"),
   ("icicibank", "ICICIBANK"),
   ("itc", "ITC"),
   ("itc limited", "ITC"),
   ("sbi", "SBIN"),
   ("state bank", "SBIN"),
   ("state bank of india", "SBIN"),
   ("kotak", "KOTAKBANK"),
   ("kotak bank", "KOTAKBANK"),
   ("bharti airtel", "BHARTIARTL"),
   ("airtel", "BHARTIARTL"),
   ("larsen", "LT"),
   ("l&t", "LT"),
   ("larsen toubro", "LT"),
   ("astral", "ASTRAL"),
   ("astral limited", "ASTRAL"),
   ("laurus labs", "LAURUSLABS"),
   ("lauruslabs", "LAURUSLABS"),
   ("wipro", "WIPRO"),
   ("maruti", "MARUTI"),
   ("maruti suzuki", "MARUTI"),
   ("asian paints", "ASIANPAINT"),
   ("asianpaint", "ASIANPAINT"),
   ("titan", "TITAN"),
   ("hindustan unilever", "HINDUNILVR"),
   ("hul", "HINDUNILVR")]

/-- Model of `resolve_symbol_locally(query)`: `COMMON_NAMES_TO_SYMBOL.get(query.strip().lower())`. -/
def resolve_symbol_locally (query : String) : Option String :=
  lookupKey COMMON_NAMES_TO_SYMBOL (pyLower (pyStrip query))

/-- The module-level `httpx.AsyncClient` handle: an id (creation order),
whether the warm-up homepage request succeeded (cookies acquired), and
whether `aclose` has been called on it. -/
structure ClientH where
  id : Nat
  hasCookies : Bool
  isClosed : Bool
deriving DecidableEq

/-- The module-level mutable state of `nse_client.py`: the `_client` global,
a source of fresh client ids, and how many warm-up (bootstrap) requests have
been issued so far. -/
structure NseGlobals where
  client : Option ClientH
  nextId : Nat
  bootstrapAttempts : Nat
deriving DecidableEq

/-- Model of `_get_client()`: reuse `_client` unless it is `None` or closed; otherwise
build a fresh client and warm it up against the homepage (`bootOk i` says
whether the `i`-th warm-up request of the process succeeded; a failure is
swallowed — `except Exception: pass`). -/
def get_client (bootOk : Nat → Bool) (g : NseGlobals) : ClientH × NseGlobals :=
  match g.client with
  | some c =>
    if c.isClosed then
      let c2 : ClientH := ⟨g.nextId, bootOk g.bootstrapAttempts, false⟩
      (c2, ⟨some c2, g.nextId + 1, g.bootstrapAttempts + 1⟩)
    else (c, g)
  | none =>
    let c2 : ClientH := ⟨g.nextId, bootOk g.bootstrapAttempts, false⟩
    (c2, ⟨some c2, g.nextId + 1, g.bootstrapAttempts + 1⟩)

/-- Model of the nested field read chain on the high-low record — both bounds optional. -/
structure HighLow where
  max : Option ℚ
  min : Option ℚ
deriving DecidableEq

/-- Model of the price-info record, every field read with a missing fallback. -/
structure PriceInfo where
  lastPrice : Option ℚ
  openPrice : Option ℚ
  intraDayHighLow : Option HighLow
  previousClose : Option ℚ
  change : Option ℚ
  pChange : Option ℚ
deriving DecidableEq

/-- A parsed quote-endpoint JSON body: `priceInfo` may be absent
(`data.get("priceInfo", {})`), and `preOpenVolume` stands for
`data.get("preOpenMarket", {}).get("totalTradedVolume")`. -/
structure QuoteData where
  priceInfo : Option PriceInfo
  preOpenVolume : Option ℚ
deriving DecidableEq

def emptyPriceInfo : PriceInfo := ⟨none, none, none, none, none, none⟩

/-- The dict literal returned by `fetch_nse_price` on a 200 response.
`openPrice` renders the Python key `"open"` (a Lean keyword). -/
structure QuoteDict where
  symbol : String
  price : Option ℚ
  openPrice : Option ℚ
  high : Option ℚ
  low : Option ℚ
  prev_close : Option ℚ
  change : Option ℚ
  change_pct : Option ℚ
  volume : Option ℚ
deriving DecidableEq

def buildQuoteDict (cleanSymbol : String) (d : QuoteData) : QuoteDict :=
  let pinfo := d.priceInfo.getD emptyPriceInfo
  let hl := pinfo.intraDayHighLow.getD ⟨none, none⟩
  { symbol := cleanSymbol ++ ".NS"
    price := pinfo.lastPrice
    openPrice := pinfo.openPrice
    high := hl.max
    low := hl.min
    prev_close := pinfo.previousClose
    change := pinfo.change
    change_pct := pinfo.pChange
    volume := d.preOpenVolume }

/-- Record of one iteration in the retry loop of `fetch_nse_price`:
which attempt issued the quote request, with which client (id and whether its
warm-up had succeeded), and how many bootstrap requests the process had made
when the request went out. -/
structure ReqRec where
  attempt : Nat
  clientId : Nat
  clientCookies : Bool
  bootsDone : Nat
deriving DecidableEq

/-- Observable effects of one `fetch_nse_price` call: quote requests issued,
backoff sleeps performed (milliseconds, in order), ids of clients closed by
the 401 branch, and how many 401-triggered session rebuilds ran. -/
structure FetchLog where
  requests : List ReqRec
  sleepsMs : List Nat
  closed : List Nat
  rebuilds : Nat
deriving DecidableEq

/-- The `try:` block of one loop iteration, up to but excluding the session
mutation of the 401 branch: the GET may raise, a 401 leads to `continue`
(after a rebuild, handled by the loop), any other non-200 returns `None`,
and on 200 the JSON parse may raise before the dict is built. -/
inductive AttemptOutcome where
  | ret (r : Option QuoteDict)
  | retry401
deriving DecidableEq

def attemptBody (r : HttpOutcome QuoteData) (cleanSymbol : String) :
    Except Unit AttemptOutcome :=
  match r with
  | .raise => .error ()
  | .status code body =>
    if code = 401 then .ok .retry401
    else if code ≠ 200 then .ok (.ret none)
    else
      match body with
      | .error e => .error e
      | .ok data => .ok (.ret (some (buildQuoteDict cleanSymbol data)))

/-- Model of the retry loop of `fetch_nse_price` (three attempts).
Here `resp i` is the upstream behaviour on the attempt-`i` quote request.
On 401: close the global client (`if _client: await _client.aclose()`),
clear it, `_get_client()` again, `continue`.  On a caught exception:
`sleep(0.5 * (attempt + 1))` (modelled in ms) if attempts remain, else
return `None`.  Falling off the loop returns `None`. -/
def fetchLoop (resp : Nat → HttpOutcome QuoteData) (bootOk : Nat → Bool)
    (cleanSymbol : String) :
    List Nat → ClientH → NseGlobals →
      Except Unit (Option QuoteDict × NseGlobals × FetchLog)
  | [], _, g => .ok (none, g, ⟨[], [], [], 0⟩)
  | a :: rest, c, g =>
    let rr : ReqRec := ⟨a, c.id, c.hasCookies, g.bootstrapAttempts⟩
    match attemptBody (resp a) cleanSymbol with
    | .ok (.ret r) => .ok (r, g, ⟨[rr], [], [], 0⟩)
    | .ok .retry401 =>
      let closedIds : List Nat :=
        match g.client with
        | some cc => [cc.id]
        | none => []
      let g1 : NseGlobals := { g with client := none }
      let cg := get_client bootOk g1
      match fetchLoop resp bootOk cleanSymbol rest cg.1 cg.2 with
      | .ok (res, g3, log) =>
        .ok (res, g3, ⟨rr :: log.requests, log.sleepsMs, closedIds ++ log.closed,
              log.rebuilds + 1⟩)
      | .error e => .error e
    | .error _ =>
      if a < 2 then
        match fetchLoop resp bootOk cleanSymbol rest c g with
        | .ok (res, g3, log) =>
          .ok (res, g3, ⟨rr :: log.requests, (500 * (a + 1)) :: log.sleepsMs,
                log.closed, log.rebuilds⟩)
        | .error e => .error e
      else .ok (none, g, ⟨[rr], [], [], 0⟩)

/-- Model of `fetch_nse_price(symbol)`: strip `.NS` and `.BO`, get (or build) the session
client, then run the 3-attempt retry loop. -/
def fetch_nse_price (symbol : String) (resp : Nat → HttpOutcome QuoteData)
    (bootOk : Nat → Bool) (g0 : NseGlobals) :
    Except Unit (Option QuoteDict × NseGlobals × FetchLog) :=
  let cleanSymbol := pyReplace (pyReplace (pyUpper symbol) ".NS" "") ".BO" ""
  let cg := get_client bootOk g0
  fetchLoop resp bootOk cleanSymbol [0, 1, 2] cg.1 cg.2

def runOk (e : Except Unit (Option QuoteDict × NseGlobals × FetchLog)) : Bool :=
  match e with
  | .ok _ => true
  | .error _ => false

def runResult (e : Except Unit (Option QuoteDict × NseGlobals × FetchLog)) :
    Option QuoteDict :=
  match e with
  | .ok (r, _, _) => r
  | .error _ => none

def runLog (e : Except Unit (Option QuoteDict × NseGlobals × FetchLog)) : FetchLog :=
  match e with
  | .ok (_, _, l) => l
  | .error _ => ⟨[], [], [], 0⟩

/-- An item of the candidate list in the NSE autocomplete response. -/
structure NseSearchItem where
  symbol : Option String
deriving DecidableEq

/-- Model of the candidate scan: the first non-empty symbol (upper-cased) wins,
with no filtering. -/
def firstSymbol : List NseSearchItem → Option String
  | [] => none
  | it :: rest =>
    let s := pyUpper (it.symbol.getD "")
    if s = "" then firstSymbol rest else some s

def search_body (o : HttpOutcome (List NseSearchItem)) : Except Unit (Option String) :=
  match o with
  | .raise => .error ()
  | .status code body =>
    if code ≠ 200 then .ok none
    else
      match body with
      | .error e => .error e
      | .ok data => .ok (firstSymbol data)

/-- Model of `nse_client.search_nse_symbol(query)`: get the session client, issue one
autocomplete request, return the first non-empty candidate symbol; every
caught exception becomes `None`. -/
def search_nse_symbol (query : String) (o : HttpOutcome (List NseSearchItem))
    (bootOk : Nat → Bool) (g : NseGlobals) : Except Unit (Option String × NseGlobals) :=
  let cg := get_client bootOk g
  match search_body o with
  | .ok r => .ok (r, cg.2)
  | .error _ => .ok (none, cg.2)

end NseClient

namespace YahooClient

/-! ### backend/app/yahoo_client.py -/

/-- An item of the candidate list in the Yahoo search response; every field is
read with `.get` and may be absent. -/
structure YQuoteItem where
  exchange : Option String
  quoteType : Option String
  symbol : Option String
deriving DecidableEq

/-- The NSE-only filter of `yahoo_client.search_nse_symbol`:
`item.get("exchange") == "NSI" and item.get("quoteType") == "EQUITY" and
item.get("symbol", "").endswith(".NS")`. -/
def yahooAccept (it : YQuoteItem) : Bool :=
  (it.exchange == some "NSI") && (it.quoteType == some "EQUITY")
    && pyEndsWith (it.symbol.getD "") ".NS"

/-- Model of the candidate scan: the first item passing the filter is returned.
The `.error` case is the `KeyError` of `item["symbol"]` (unreachable: the
suffix check of the filter already forces the key to be present). -/
def findAccepted : List YQuoteItem → Except Unit (Option String)
  | [] => .ok none
  | it :: rest =>
    if yahooAccept it then
      match it.symbol with
      | some s => .ok (some s)
      | none => .error ()
    else findAccepted rest

def search_body (o : HttpOutcome (List YQuoteItem)) : Except Unit (Option String) :=
  match o with
  | .raise => .error ()
  | .status code body =>
    if code ≠ 200 then .ok none
    else
      match body with
      | .error e => .error e
      | .ok items => findAccepted items

/-- Model of `yahoo_client.search_nse_symbol(name)`: one search request, the NSE-only
filter over the candidates, and `except Exception: return None` around the
whole body. -/
def search_nse_symbol (o : HttpOutcome (List YQuoteItem)) : Except Unit (Option String) :=
  match search_body o with
  | .ok r => .ok r
  | .error _ => .ok none

/-- The behaviour of the yfinance library for one `_fetch_ltp_sync` call:
what `fast_info.last_price` yields (or raises), and what
`ticker.history(period="1d")["Close"]` yields (or raises). -/
structure YfBehaviour where
  fastInfoLast : Except Unit (Option ℚ)
  histCloses : Except Unit (List ℚ)

def ltp_body (b : YfBehaviour) : Except Unit (Option ℚ) :=
  match b.fastInfoLast with
  | .error e => .error e
  | .ok (some p) => .ok (some p)
  | .ok none =>
    match b.histCloses with
    | .error e => .error e
    | .ok closes =>
      match closes.getLast? with
      | some clast => .ok (some clast)
      | none => .ok none

/-- Model of `_fetch_ltp_sync(symbol)`: the fast-info last price, falling back to the
last close of a 1-day history, with `except Exception: return None` around
the whole body. -/
def fetch_ltp_sync (b : YfBehaviour) : Except Unit (Option ℚ) :=
  match ltp_body b with
  | .ok r => .ok r
  | .error _ => .ok none

end YahooClient

namespace Main

/-! ### backend/app/main.py

The module state is the pair of module-level caches.  `search_stock` and
`get_price` are the route handlers; the network clients they call are
abstracted by the value those calls return (`net`), as justified by the
theorems showing the client functions never raise.
-/

structure AppState where
  symbol_cache : TTLCache String
  price_cache : TTLCache ℚ
deriving DecidableEq

/-- Caches as initialised at import time:
`symbol_cache = TTLCache(ttl_seconds=3600)` and
`price_cache = TTLCache(ttl_seconds=0)` (default `max_items=256`). -/
def initState : AppState :=
  { symbol_cache := ⟨3600, 256, []⟩, price_cache := ⟨0, 256, []⟩ }

inductive RouteResp where
  | found (symbol : String)
  | notFound
  | crash
deriving DecidableEq

structure SearchResult where
  resp : RouteResp
  state : AppState
  searchCalls : Nat
deriving DecidableEq

/-- Python truthiness of an `str | None` value: `None` and `""` are falsy. -/
def strTruthy : Option String → Bool
  | none => false
  | some s => !(s == "")

/-- Model of the `GET /search-stock` handler `search_stock`: normalize, consult `symbol_cache`,
otherwise call `yahoo_client.search_nse_symbol` (counted in `searchCalls`),
404 (`notFound`) when falsy, else populate the cache and answer.  `crash` is
an exception escaping the handler (only `symbol_cache.set` can raise, and
only when `max_items ≤ 0`). -/
def search_stock (name : String) (st : AppState) (now : Nat) (net : Option String) :
    SearchResult :=
  let query := pyLower (pyStrip name)
  let g := TTLCache.get st.symbol_cache query now
  let st1 : AppState := { st with symbol_cache := g.2 }
  if strTruthy g.1 then
    { resp := .found ((g.1).getD ""), state := st1, searchCalls := 0 }
  else if strTruthy net then
    match TTLCache.set st1.symbol_cache query (net.getD "") now with
    | .ok sc2 =>
      { resp := .found (net.getD ""), state := { st1 with symbol_cache := sc2 },
        searchCalls := 1 }
    | .error _ => { resp := .crash, state := st1, searchCalls := 1 }
  else { resp := .notFound, state := st1, searchCalls := 1 }

inductive PriceResp where
  | price (symbol : String) (price : ℚ)
  | notFound
deriving DecidableEq

structure PriceResult where
  resp : PriceResp
  state : AppState
  fetchCalls : Nat
deriving DecidableEq

/-- Model of the `GET /get-price` handler `get_price`: uppercase the ticker, call
`yahoo_client.fetch_ltp` (counted in `fetchCalls`; its return value is
`net`), 404 when `None` or non-positive.  Neither cache is read or written:
the returned `state` is the input state, untouched. -/
def get_price (symbol : String) (st : AppState) (net : Option ℚ) : PriceResult :=
  let ticker := pyUpper (pyStrip symbol)
  match net with
  | none => { resp := .notFound, state := st, fetchCalls := 1 }
  | some p =>
    if p ≤ 0 then { resp := .notFound, state := st, fetchCalls := 1 }
    else { resp := .price ticker p, state := st, fetchCalls := 1 }

end Main

/-! ## Helper lemmas -/

theorem lookupKey_nil {V : Type} (k : String) : lookupKey ([] : List (String × V)) k = none := rfl

theorem lookupKey_eraseKey {V : Type} (l : List (String × V)) (k : String) :
    lookupKey (eraseKey l k) k = none := by
  induction l with
  | nil => rfl
  | cons p rest ih =>
    obtain ⟨k0, e⟩ := p
    by_cases h : k0 = k <;> simp [eraseKey, h, lookupKey, ih]

theorem lookupKey_append_single {V : Type} (l : List (String × V)) (k : String) (v : V)
    (h : lookupKey l k = none) : lookupKey (l ++ [(k, v)]) k = some v := by
  induction l with
  | nil => simp [lookupKey]
  | cons p rest ih =>
    obtain ⟨k0, e⟩ := p
    by_cases hk : k0 = k
    · simp [lookupKey, hk] at h
    · simp [lookupKey, hk] at h ⊢
      exact ih h

theorem lookupKey_odUpdate_self {V : Type} (l : List (String × V)) (k : String) (v : V)
    (h : (lookupKey l k).isSome) :
    lookupKey (odUpdate l k v) k = some v := by
  induction l with
  | nil => simp [lookupKey] at h
  | cons p rest ih =>
    obtain ⟨k0, e⟩ := p
    by_cases hk : k0 = k
    · simp [odUpdate, hk, lookupKey]
    · simp [odUpdate, hk, lookupKey] at h ⊢
      exact ih h

theorem lookupKey_odUpdate_other {V : Type} (l : List (String × V)) (k k1 : String) (v : V)
    (hne : k1 ≠ k) : lookupKey (odUpdate l k v) k1 = lookupKey l k1 := by
  induction l with
  | nil => rfl
  | cons p rest ih =>
    obtain ⟨k0, e⟩ := p
    by_cases hk : k0 = k
    · have hkk1 : k ≠ k1 := fun hh => hne hh.symm
      have hk01 : k0 ≠ k1 := by rw [hk]; exact hkk1
      simp [odUpdate, hk, lookupKey, hkk1, hk01, ih]
    · by_cases hk1 : k0 = k1 <;> simp [odUpdate, hk, lookupKey, hk1, hne, ih]

theorem odUpdate_length {V : Type} (l : List (String × V)) (k : String) (v : V) :
    (odUpdate l k v).length = l.length := by
  induction l with
  | nil => rfl
  | cons p rest ih =>
    obtain ⟨k0, e⟩ := p
    by_cases hk : k0 = k <;> simp [odUpdate, hk, ih]

theorem lookupKey_append_single_other {V : Type} (l : List (String × V)) (k k1 : String)
    (v : V) (hne : k1 ≠ k) : lookupKey (l ++ [(k, v)]) k1 = lookupKey l k1 := by
  induction l with
  | nil =>
    have : k ≠ k1 := fun hh => hne hh.symm
    simp [lookupKey, this]
  | cons p rest ih =>
    obtain ⟨k0, e⟩ := p
    by_cases hk1 : k0 = k1 <;> simp [lookupKey, hk1, ih]

theorem lookupKey_odSet_self {V : Type} (l : List (String × V)) (k : String) (v : V) :
    lookupKey (odSet l k v) k = some v := by
  unfold odSet
  by_cases h : (lookupKey l k).isSome
  · simp [h, lookupKey_odUpdate_self l k v h]
  · have hnone : lookupKey l k = none := by
      cases hc : lookupKey l k
      · rfl
      · simp [hc] at h
    simp [h, lookupKey_append_single l k v hnone]

theorem lookupKey_odSet_other {V : Type} (l : List (String × V)) (k k1 : String) (v : V)
    (hne : k1 ≠ k) : lookupKey (odSet l k v) k1 = lookupKey l k1 := by
  unfold odSet
  by_cases h : (lookupKey l k).isSome
  · simp [h, lookupKey_odUpdate_other l k k1 v hne]
  · simp [h, lookupKey_append_single_other l k k1 v hne]

theorem lookupKey_odSet_isSome {V : Type} (l : List (String × V)) (k k1 : String) (v : V)
    (h : (lookupKey l k1).isSome) : (lookupKey (odSet l k v) k1).isSome := by
  by_cases hk : k1 = k
  · subst hk; simp [lookupKey_odSet_self]
  · rw [lookupKey_odSet_other l k k1 v hk]; exact h

theorem odSet_length_le {V : Type} (l : List (String × V)) (k : String) (v : V) :
    (odSet l k v).length ≤ l.length + 1 := by
  unfold odSet
  by_cases h : (lookupKey l k).isSome <;> simp [h, odUpdate_length]

theorem TTLCache.set_ok_cases {V : Type} (c c2 : TTLCache V) (key : String) (v : V) (now : Nat)
    (h : TTLCache.set c key v now = .ok c2) :
    c2.ttl = c.ttl ∧ c2.maxItems = c.maxItems ∧
      lookupKey c2.store key = some (v, now) ∧
      c2.store.length ≤ c.store.length + 1 ∧
      (c.maxItems ≤ c.store.length → c2.store.length ≤ c.store.length) := by
  unfold TTLCache.set at h
  by_cases hcap : c.maxItems ≤ c.store.length
  · simp only [hcap, if_true] at h
    cases hs : c.store with
    | nil => rw [hs] at h; exact absurd h (by simp)
    | cons hd tail =>
      rw [hs] at h
      have hc2 : c2 = { c with store := odSet tail key (v, now) } := by
        cases h; rfl
      subst hc2
      refine ⟨rfl, rfl, lookupKey_odSet_self _ _ _, ?_, fun _ => ?_⟩
      · have := odSet_length_le tail key (v, now)
        simp [hs]; omega
      · have := odSet_length_le tail key (v, now)
        simp [hs]; omega
  · simp only [hcap, if_false] at h
    have hc2 : c2 = { c with store := odSet c.store key (v, now) } := by
      cases h; rfl
    subst hc2
    refine ⟨rfl, rfl, lookupKey_odSet_self _ _ _, odSet_length_le _ _ _, fun hcap2 => ?_⟩
    exact absurd hcap2 hcap

theorem TTLCache.set_preserves_bound {V : Type} (c c2 : TTLCache V) (key : String) (v : V)
    (now : Nat) (h : TTLCache.set c key v now = .ok c2)
    (hinv : c.store.length ≤ c.maxItems) :
    c2.store.length ≤ c.maxItems ∧ c2.maxItems = c.maxItems := by
  obtain ⟨-, hmax, -, hlen1, hlen2⟩ := TTLCache.set_ok_cases c c2 key v now h
  by_cases hcap : c.maxItems ≤ c.store.length
  · exact ⟨le_trans (hlen2 hcap) hinv, hmax⟩
  · exact ⟨by omega, hmax⟩

/-! ### Shared HTTP oracle

The outcome of one network request: either the transport raises (`raise`), or a
response arrives with a status code and a body whose JSON parse may itself
raise (`Except.error`).
-/

theorem NseClient.get_client_client (bootOk : Nat → Bool) (g : NseGlobals) :
    (get_client bootOk g).2.client = some (get_client bootOk g).1 := by
  unfold get_client
  cases hc : g.client with
  | none => rfl
  | some c =>
    by_cases h : c.isClosed <;> simp [h, hc]


/-! ## Claim theorems: the cache (C3, C4, C5) -/

/-- Claim C3 —: for every cache with TTL `t` and every key, `get` returns absent
once the elapsed time since the insertion of the entry strictly exceeds `t`, and
the expired entry is purged from the store by that read; in particular with
`t = 0` a `get` at any strictly later time returns absent. -/
theorem ttlcache_get_expired_purges {V : Type} (c c2 : TTLCache V) (key : String) (v : V)
    (t1 t2 : Nat) (hset : TTLCache.set c key v t1 = .ok c2) (ht : t1 + c.ttl < t2) :
    (TTLCache.get c2 key t2).1 = none ∧
      lookupKey ((TTLCache.get c2 key t2).2).store key = none := by
  obtain ⟨httl, -, hlk, -, -⟩ := TTLCache.set_ok_cases c c2 key v t1 hset
  have ht2 : t1 + c2.ttl < t2 := by rw [httl]; exact ht
  unfold TTLCache.get
  rw [hlk]
  simp [ht2, lookupKey_eraseKey]

/-- Witness for C3 at TTL 0: setting `"p"` at time 0 and reading at time 1
returns absent and leaves no `"p"` entry behind. -/
theorem ttlcache_get_expired_purges_witness :
    TTLCache.set (⟨0, 4, []⟩ : TTLCache Nat) "p" 7 0 = .ok ⟨0, 4, [("p", (7, 0))]⟩ ∧
    (0 : Nat) + (⟨0, 4, ([] : List (String × Nat × Nat))⟩ : TTLCache Nat).ttl < 1 ∧
    ((TTLCache.get (⟨0, 4, [("p", (7, 0))]⟩ : TTLCache Nat) "p" 1).1 = none ∧
      lookupKey ((TTLCache.get (⟨0, 4, [("p", (7, 0))]⟩ : TTLCache Nat) "p" 1).2).store "p"
        = none) :=
  ⟨by decide, by decide,
    ttlcache_get_expired_purges (⟨0, 4, []⟩ : TTLCache Nat) _ "p" 7 0 1 (by decide) (by decide)⟩

/-- Claim C4 (amended) —: `set` evicts exactly when the store has reached
`maxItems`, regardless of whether the key is already present; the evicted
entry is the earliest-inserted one.  Below capacity no entry is lost. -/
theorem ttlcache_set_eviction_amended {V : Type} (c : TTLCache V) (k : String) (v : V)
    (now : Nat) :
    (∀ k0 e tl, c.store = (k0, e) :: tl → c.maxItems ≤ c.store.length → k0 ≠ k →
        lookupKey tl k0 = none →
        ∃ c2, TTLCache.set c k v now = .ok c2 ∧
          lookupKey c2.store k0 = none ∧ lookupKey c2.store k = some (v, now)) ∧
    (c.store.length < c.maxItems →
        ∃ c2, TTLCache.set c k v now = .ok c2 ∧
          (∀ k1, (lookupKey c.store k1).isSome → (lookupKey c2.store k1).isSome) ∧
          lookupKey c2.store k = some (v, now)) := by
  constructor
  · intro k0 e tl hst hcap hne hnomem
    refine ⟨{ c with store := odSet tl k (v, now) }, ?_, ?_, lookupKey_odSet_self _ _ _⟩
    · have hcap2 : c.maxItems ≤ ((k0, e) :: tl).length := hst ▸ hcap
      unfold TTLCache.set
      rw [hst]
      simp only [List.length_cons]
      rw [if_pos (by simpa using hcap2)]
    · rw [lookupKey_odSet_other tl k k0 (v, now) hne]
      exact hnomem
  · intro hlt
    have hcap : ¬ c.maxItems ≤ c.store.length := by omega
    refine ⟨{ c with store := odSet c.store k (v, now) }, ?_, ?_,
      lookupKey_odSet_self _ _ _⟩
    · unfold TTLCache.set
      simp [hcap]
    · intro k1 h1
      exact lookupKey_odSet_isSome _ _ _ _ h1

/-- Witness for C4 (amended): a full cache `[a, b]` with `maxItems = 2`;
setting the already-present key `"b"` evicts the oldest entry `"a"`. -/
theorem ttlcache_set_eviction_amended_witness :
    ∃ c2, TTLCache.set (⟨10, 2, [("a", ((1 : Nat), 0)), ("b", (2, 0))]⟩ : TTLCache Nat)
        "b" 5 7 = .ok c2 ∧
      lookupKey c2.store "a" = none ∧ lookupKey c2.store "b" = some (5, 7) :=
  (ttlcache_set_eviction_amended
      (⟨10, 2, [("a", ((1 : Nat), 0)), ("b", (2, 0))]⟩ : TTLCache Nat) "b" 5 7).1
    "a" (1, 0) [("b", (2, 0))] rfl (by decide) (by decide) (by decide)

/-- Claim C4 counterexample —: overwriting an existing key does trigger an
eviction.  With `maxItems = 2` and store `[a, b]`, `set("b", …)` — `"b"`
already present — pops the earliest entry `"a"` and leaves a store of size 1,
refuting "overwriting an existing key never triggers an eviction" and
"evicts only when … key is not already present". -/
theorem ttlcache_set_overwrite_evicts :
    lookupKey ((⟨10, 2, [("a", ((1 : Nat), 0)), ("b", (2, 0))]⟩ : TTLCache Nat)).store "b"
        = some (2, 0) ∧
    TTLCache.set (⟨10, 2, [("a", ((1 : Nat), 0)), ("b", (2, 0))]⟩ : TTLCache Nat) "b" 5 7
        = .ok ⟨10, 2, [("b", (5, 7))]⟩ ∧
    lookupKey [("b", ((5 : Nat), 7))] "a" = none := by decide

/-- Claim C5 —: from any state within capacity, any sequence of `set` calls
(including more than `maxItems` distinct keys) keeps `|store| ≤ maxItems`;
intermediate states are covered by instantiating `ops` with each prefix. -/
theorem ttlcache_capacity_invariant {V : Type} (c c2 : TTLCache V)
    (ops : List (String × V × Nat)) (hinv : c.store.length ≤ c.maxItems)
    (hrun : TTLCache.setSeq c ops = .ok c2) :
    c2.store.length ≤ c.maxItems ∧ c2.maxItems = c.maxItems := by
  induction ops generalizing c with
  | nil =>
    unfold TTLCache.setSeq at hrun
    cases hrun
    exact ⟨hinv, rfl⟩
  | cons op rest ih =>
    obtain ⟨k, v, t⟩ := op
    unfold TTLCache.setSeq at hrun
    cases hset : TTLCache.set c k v t with
    | error e => rw [hset] at hrun; exact absurd hrun (by simp)
    | ok c1 =>
      rw [hset] at hrun
      obtain ⟨h1, h2⟩ := TTLCache.set_preserves_bound c c1 k v t hset hinv
      obtain ⟨ha, hb⟩ := ih c1 (by rw [h2]; exact h1) hrun
      rw [h2] at ha hb
      exact ⟨ha, hb⟩

/-- Witness for C5: three distinct keys through a `maxItems = 2` cache; the
store ends at size 2 (`"a"` was evicted first). -/
theorem ttlcache_capacity_invariant_witness :
    ((⟨5, 2, []⟩ : TTLCache Nat)).store.length ≤ ((⟨5, 2, []⟩ : TTLCache Nat)).maxItems ∧
    TTLCache.setSeq (⟨5, 2, []⟩ : TTLCache Nat) [("a", 1, 0), ("b", 2, 1), ("c", 3, 2)]
        = .ok ⟨5, 2, [("b", (2, 1)), ("c", (3, 2))]⟩ ∧
    ((⟨5, 2, [("b", ((2 : Nat), 1)), ("c", (3, 2))]⟩ : TTLCache Nat).store.length ≤ 2 ∧
      (⟨5, 2, [("b", ((2 : Nat), 1)), ("c", (3, 2))]⟩ : TTLCache Nat).maxItems = 2) :=
  ⟨by decide, by decide,
    ttlcache_capacity_invariant (⟨5, 2, []⟩ : TTLCache Nat) _
      [("a", 1, 0), ("b", 2, 1), ("c", 3, 2)] (by decide) (by decide)⟩

/-! ## Claim theorems: the routes (C1, C2) -/

/-- Claim C1 (amended) —: `resolve_symbol_locally` is a pure lookup of the
trimmed, lower-cased name in the alias table (so it issues no network call),
but the search route never consults it: on a cache miss `search_stock`
issues exactly one network search call even when the name is in the alias
table. -/
theorem alias_resolver_not_consulted (name sym : String) (now : Nat) (net : Option String)
    (h : NseClient.resolve_symbol_locally name = some sym) :
    NseClient.resolve_symbol_locally name
        = lookupKey NseClient.COMMON_NAMES_TO_SYMBOL (pyLower (pyStrip name)) ∧
    (Main.search_stock name Main.initState now net).searchCalls = 1 := by
  refine ⟨rfl, ?_⟩
  unfold Main.search_stock Main.initState
  simp only [TTLCache.get, lookupKey, Main.strTruthy, Bool.false_eq_true, if_false]
  cases net with
  | none => rfl
  | some s =>
    by_cases hs : s = ""
    · simp [hs, Main.strTruthy]
    · simp [Main.strTruthy, hs, TTLCache.set]

/-- Witness for C1 (amended) at the scenario input of the spec, `"  TCS  "`. -/
theorem alias_resolver_not_consulted_witness :
    NseClient.resolve_symbol_locally "  TCS  "
        = lookupKey NseClient.COMMON_NAMES_TO_SYMBOL (pyLower (pyStrip "  TCS  ")) ∧
    (Main.search_stock "  TCS  " Main.initState 0 (some "TCS.NS")).searchCalls = 1 :=
  alias_resolver_not_consulted "  TCS  " "TCS" 0 (some "TCS.NS") (by decide)

/-- Claim C1 counterexample —: `"  TCS  "` normalizes to `"tcs"`, which the alias
table maps to `"TCS"`; yet resolving it through the search route with a cold
cache issues one network search call, not zero. -/
theorem search_stock_alias_hits_network :
    NseClient.resolve_symbol_locally "  TCS  " = some "TCS" ∧
    (Main.search_stock "  TCS  " Main.initState 0 (some "TCS.NS")).searchCalls = 1 ∧
    ¬ (Main.search_stock "  TCS  " Main.initState 0 (some "TCS.NS")).searchCalls = 0 := by
  refine ⟨by decide, by decide, by decide⟩

/-- Claim C2 —: `get_price` touches no cache — the module state is returned
unchanged — and performs exactly one live upstream fetch per invocation, so
two immediately consecutive calls for the same symbol both go to the
network (two fetches total, caches still untouched). -/
theorem get_price_no_cache_two_calls (symbol : String) (st : Main.AppState)
    (net1 net2 : Option ℚ) :
    (Main.get_price symbol st net1).fetchCalls = 1 ∧
    (Main.get_price symbol st net1).state = st ∧
    (Main.get_price symbol (Main.get_price symbol st net1).state net2).fetchCalls = 1 ∧
    (Main.get_price symbol (Main.get_price symbol st net1).state net2).state = st := by
  have hstate : ∀ (s2 : Main.AppState) (n : Option ℚ), (Main.get_price symbol s2 n).state = s2 := by
    intro s2 n
    unfold Main.get_price
    cases n with
    | none => rfl
    | some p => by_cases hp : p ≤ 0 <;> simp [hp]
  have hcalls : ∀ (s2 : Main.AppState) (n : Option ℚ),
      (Main.get_price symbol s2 n).fetchCalls = 1 := by
    intro s2 n
    unfold Main.get_price
    cases n with
    | none => rfl
    | some p => by_cases hp : p ≤ 0 <;> simp [hp]
  exact ⟨hcalls st net1, hstate st net1, hcalls _ net2, by rw [hstate st net1]; exact hstate st net2⟩

/-! ## Helper lemmas for the retry loop -/

theorem NseClient.fetchLoop_ok (resp : Nat → HttpOutcome NseClient.QuoteData)
    (bootOk : Nat → Bool) (cleanSymbol : String) :
    ∀ (attempts : List Nat) (c : NseClient.ClientH) (g : NseClient.NseGlobals),
      ∃ out, NseClient.fetchLoop resp bootOk cleanSymbol attempts c g = .ok out := by
  intro attempts
  induction attempts with
  | nil => intro c g; exact ⟨_, rfl⟩
  | cons a rest ih =>
    intro c g
    cases hfl : NseClient.fetchLoop resp bootOk cleanSymbol (a :: rest) c g with
    | ok out => exact ⟨out, rfl⟩
    | error e2 =>
      exfalso
      unfold NseClient.fetchLoop at hfl
      cases hab : NseClient.attemptBody (resp a) cleanSymbol with
      | error e =>
        rw [hab] at hfl
        by_cases ha : a < 2
        · obtain ⟨⟨res, g3, log⟩, hout⟩ := ih c g
          simp [ha, hout] at hfl
        · simp [ha] at hfl
      | ok o =>
        rw [hab] at hfl
        cases o with
        | ret r => simp at hfl
        | retry401 =>
          obtain ⟨⟨res, g3, log⟩, hout⟩ :=
            ih (NseClient.get_client bootOk { g with client := none }).1
              (NseClient.get_client bootOk { g with client := none }).2
          simp [hout] at hfl

/-- Unfolding one loop iteration: the head of the request log records the
attempt index, the client used, and the bootstrap count at request time. -/
theorem NseClient.fetchLoop_cons (resp : Nat → HttpOutcome NseClient.QuoteData)
    (bootOk : Nat → Bool) (cleanSymbol : String) (a : Nat) (rest : List Nat)
    (c : NseClient.ClientH) (g : NseClient.NseGlobals) :
    ∃ res g2 log, NseClient.fetchLoop resp bootOk cleanSymbol (a :: rest) c g
        = .ok (res, g2, log) ∧
      ∃ t, log.requests
          = (⟨a, c.id, c.hasCookies, g.bootstrapAttempts⟩ : NseClient.ReqRec) :: t := by
  cases hab : NseClient.attemptBody (resp a) cleanSymbol with
  | error e =>
    by_cases ha : a < 2
    · obtain ⟨⟨res, g3, log⟩, hout⟩ := NseClient.fetchLoop_ok resp bootOk cleanSymbol rest c g
      refine ⟨res, g3,
        ⟨(⟨a, c.id, c.hasCookies, g.bootstrapAttempts⟩ : NseClient.ReqRec) :: log.requests,
          (500 * (a + 1)) :: log.sleepsMs, log.closed, log.rebuilds⟩,
        ?_, log.requests, rfl⟩
      unfold NseClient.fetchLoop
      rw [hab]
      simp [ha, hout]
    · refine ⟨none, g,
        ⟨[(⟨a, c.id, c.hasCookies, g.bootstrapAttempts⟩ : NseClient.ReqRec)], [], [], 0⟩,
        ?_, [], rfl⟩
      unfold NseClient.fetchLoop
      rw [hab]
      simp [ha]
  | ok o =>
    cases o with
    | ret r =>
      refine ⟨r, g,
        ⟨[(⟨a, c.id, c.hasCookies, g.bootstrapAttempts⟩ : NseClient.ReqRec)], [], [], 0⟩,
        ?_, [], rfl⟩
      unfold NseClient.fetchLoop
      rw [hab]
    | retry401 =>
      obtain ⟨⟨res, g3, log⟩, hout⟩ := NseClient.fetchLoop_ok resp bootOk cleanSymbol rest
        (NseClient.get_client bootOk { g with client := none }).1
        (NseClient.get_client bootOk { g with client := none }).2
      refine ⟨res, g3,
        ⟨(⟨a, c.id, c.hasCookies, g.bootstrapAttempts⟩ : NseClient.ReqRec) :: log.requests,
          log.sleepsMs,
          (match g.client with | some cc => [cc.id] | none => []) ++ log.closed,
          log.rebuilds + 1⟩,
        ?_, log.requests, rfl⟩
      unfold NseClient.fetchLoop
      rw [hab]
      simp [hout]

/-- One loop iteration that sees a 401: the current global client is closed,
exactly one rebuild (with one fresh bootstrap) runs, and the loop continues
with the freshly built client. -/
theorem NseClient.fetchLoop_401_step (resp : Nat → HttpOutcome NseClient.QuoteData)
    (bootOk : Nat → Bool) (cleanSymbol : String) (a : Nat) (rest : List Nat)
    (c : NseClient.ClientH) (g : NseClient.NseGlobals) (b : Except Unit NseClient.QuoteData)
    (hr : resp a = .status 401 b) (hcl : g.client = some c) :
    NseClient.fetchLoop resp bootOk cleanSymbol (a :: rest) c g =
      match NseClient.fetchLoop resp bootOk cleanSymbol rest
          ⟨g.nextId, bootOk g.bootstrapAttempts, false⟩
          ⟨some ⟨g.nextId, bootOk g.bootstrapAttempts, false⟩, g.nextId + 1,
            g.bootstrapAttempts + 1⟩ with
      | .ok (res, g3, log) =>
        .ok (res, g3,
          ⟨(⟨a, c.id, c.hasCookies, g.bootstrapAttempts⟩ : NseClient.ReqRec) :: log.requests,
            log.sleepsMs, c.id :: log.closed, log.rebuilds + 1⟩)
      | .error e => .error e := by
  cases hfl : NseClient.fetchLoop resp bootOk cleanSymbol rest
      ⟨g.nextId, bootOk g.bootstrapAttempts, false⟩
      ⟨some ⟨g.nextId, bootOk g.bootstrapAttempts, false⟩, g.nextId + 1,
        g.bootstrapAttempts + 1⟩ with
  | ok out =>
    obtain ⟨res, g3, log⟩ := out
    conv_lhs => unfold NseClient.fetchLoop
    rw [hr]
    simp [NseClient.attemptBody, NseClient.get_client, hcl, hfl]
  | error e =>
    conv_lhs => unfold NseClient.fetchLoop
    rw [hr]
    simp [NseClient.attemptBody, NseClient.get_client, hcl, hfl]

/-! ## Claim theorems: the quote-fetch retry loop (C6, C8, C10) -/

/-- Claim C6 —: when every upstream request raises a transport error, the quote
fetch makes exactly 3 attempts (indices 0, 1, 2), sleeps 500 ms after the
first and 1000 ms after the second, performs no session rebuild, and returns
absent rather than raising. -/
theorem fetch_nse_price_retry_bound (symbol : String)
    (resp : Nat → HttpOutcome NseClient.QuoteData) (bootOk : Nat → Bool)
    (g0 : NseClient.NseGlobals) (h : ∀ i, i < 3 → resp i = .raise) :
    NseClient.runOk (NseClient.fetch_nse_price symbol resp bootOk g0) = true ∧
    NseClient.runResult (NseClient.fetch_nse_price symbol resp bootOk g0) = none ∧
    (NseClient.runLog (NseClient.fetch_nse_price symbol resp bootOk g0)).requests.map
        NseClient.ReqRec.attempt = [0, 1, 2] ∧
    (NseClient.runLog (NseClient.fetch_nse_price symbol resp bootOk g0)).sleepsMs
        = [500, 1000] ∧
    (NseClient.runLog (NseClient.fetch_nse_price symbol resp bootOk g0)).rebuilds = 0 := by
  have h0 := h 0 (by omega)
  have h1 := h 1 (by omega)
  have h2 := h 2 (by omega)
  unfold NseClient.fetch_nse_price
  simp [NseClient.fetchLoop, NseClient.attemptBody, h0, h1, h2,
    NseClient.runOk, NseClient.runResult, NseClient.runLog]

/-- Witness for C6: an oracle that always raises; starting from a fresh
module state. -/
theorem fetch_nse_price_retry_bound_witness :
    NseClient.runOk (NseClient.fetch_nse_price "TCS" (fun _ => .raise) (fun _ => true)
        ⟨none, 0, 0⟩) = true ∧
    NseClient.runResult (NseClient.fetch_nse_price "TCS" (fun _ => .raise) (fun _ => true)
        ⟨none, 0, 0⟩) = none ∧
    (NseClient.runLog (NseClient.fetch_nse_price "TCS" (fun _ => .raise) (fun _ => true)
        ⟨none, 0, 0⟩)).requests.map NseClient.ReqRec.attempt = [0, 1, 2] ∧
    (NseClient.runLog (NseClient.fetch_nse_price "TCS" (fun _ => .raise) (fun _ => true)
        ⟨none, 0, 0⟩)).sleepsMs = [500, 1000] ∧
    (NseClient.runLog (NseClient.fetch_nse_price "TCS" (fun _ => .raise) (fun _ => true)
        ⟨none, 0, 0⟩)).rebuilds = 0 :=
  fetch_nse_price_retry_bound "TCS" (fun _ => .raise) (fun _ => true) ⟨none, 0, 0⟩
    (fun _ _ => rfl)

/-- Claim C10 —: a 401 response consumes one of the 3 attempts and triggers no
backoff sleep; three consecutive 401 responses produce exactly 3 attempts
(indices 0, 1, 2), no sleeps, three session rebuilds, and an absent result. -/
theorem fetch_nse_price_401_consumes_attempts (symbol : String)
    (resp : Nat → HttpOutcome NseClient.QuoteData) (bootOk : Nat → Bool)
    (g0 : NseClient.NseGlobals) (b0 b1 b2 : Except Unit NseClient.QuoteData)
    (h0 : resp 0 = .status 401 b0) (h1 : resp 1 = .status 401 b1)
    (h2 : resp 2 = .status 401 b2) :
    NseClient.runOk (NseClient.fetch_nse_price symbol resp bootOk g0) = true ∧
    NseClient.runResult (NseClient.fetch_nse_price symbol resp bootOk g0) = none ∧
    (NseClient.runLog (NseClient.fetch_nse_price symbol resp bootOk g0)).requests.map
        NseClient.ReqRec.attempt = [0, 1, 2] ∧
    (NseClient.runLog (NseClient.fetch_nse_price symbol resp bootOk g0)).sleepsMs = [] ∧
    (NseClient.runLog (NseClient.fetch_nse_price symbol resp bootOk g0)).rebuilds = 3 := by
  unfold NseClient.fetch_nse_price
  simp [NseClient.fetchLoop, NseClient.attemptBody, h0, h1, h2, NseClient.get_client,
    NseClient.runOk, NseClient.runResult, NseClient.runLog]

/-- Witness for C10: an oracle answering 401 to every request. -/
theorem fetch_nse_price_401_consumes_attempts_witness :
    NseClient.runOk (NseClient.fetch_nse_price "TCS" (fun _ => .status 401 (.error ()))
        (fun _ => true) ⟨none, 0, 0⟩) = true ∧
    NseClient.runResult (NseClient.fetch_nse_price "TCS" (fun _ => .status 401 (.error ()))
        (fun _ => true) ⟨none, 0, 0⟩) = none ∧
    (NseClient.runLog (NseClient.fetch_nse_price "TCS" (fun _ => .status 401 (.error ()))
        (fun _ => true) ⟨none, 0, 0⟩)).requests.map NseClient.ReqRec.attempt = [0, 1, 2] ∧
    (NseClient.runLog (NseClient.fetch_nse_price "TCS" (fun _ => .status 401 (.error ()))
        (fun _ => true) ⟨none, 0, 0⟩)).sleepsMs = [] ∧
    (NseClient.runLog (NseClient.fetch_nse_price "TCS" (fun _ => .status 401 (.error ()))
        (fun _ => true) ⟨none, 0, 0⟩)).rebuilds = 3 :=
  fetch_nse_price_401_consumes_attempts "TCS" (fun _ => .status 401 (.error ()))
    (fun _ => true) ⟨none, 0, 0⟩ (.error ()) (.error ()) (.error ()) rfl rfl rfl

/-- Claim C8 —: a 401 during a quote fetch closes the current session client,
clears the handle, performs exactly one rebuild with one fresh bootstrap
before the next attempt (the bootstrap counter at the attempt-1 request is
the attempt-0 value plus one), and attempt 1 uses the freshly built client
(the next fresh id, carrying the outcome of that fresh bootstrap). -/
theorem fetch_nse_price_session_recovery (symbol : String)
    (resp : Nat → HttpOutcome NseClient.QuoteData) (bootOk : Nat → Bool)
    (g0 : NseClient.NseGlobals) (b0 : Except Unit NseClient.QuoteData)
    (h : resp 0 = .status 401 b0) :
    NseClient.runOk (NseClient.fetch_nse_price symbol resp bootOk g0) = true ∧
    (NseClient.runLog (NseClient.fetch_nse_price symbol resp bootOk g0)).closed.take 1
        = [(NseClient.get_client bootOk g0).1.id] ∧
    (NseClient.runLog (NseClient.fetch_nse_price symbol resp bootOk g0)).requests.take 2
        = [⟨0, (NseClient.get_client bootOk g0).1.id,
            (NseClient.get_client bootOk g0).1.hasCookies,
            (NseClient.get_client bootOk g0).2.bootstrapAttempts⟩,
           ⟨1, (NseClient.get_client bootOk g0).2.nextId,
            bootOk (NseClient.get_client bootOk g0).2.bootstrapAttempts,
            (NseClient.get_client bootOk g0).2.bootstrapAttempts + 1⟩] := by
  rcases hg : NseClient.get_client bootOk g0 with ⟨c1, g1⟩
  have hcl : g1.client = some c1 := by
    have hx := NseClient.get_client_client bootOk g0
    rw [hg] at hx
    exact hx
  obtain ⟨res, g3, log, hout, t, hreq⟩ := NseClient.fetchLoop_cons resp bootOk
    (pyReplace (pyReplace (pyUpper symbol) ".NS" "") ".BO" "") 1 [2]
    ⟨g1.nextId, bootOk g1.bootstrapAttempts, false⟩
    ⟨some ⟨g1.nextId, bootOk g1.bootstrapAttempts, false⟩, g1.nextId + 1,
      g1.bootstrapAttempts + 1⟩
  have hstep := NseClient.fetchLoop_401_step resp bootOk
    (pyReplace (pyReplace (pyUpper symbol) ".NS" "") ".BO" "") 0 [1, 2] c1 g1 b0 h hcl
  unfold NseClient.fetch_nse_price
  simp only [hg]
  rw [hstep, hout]
  simp [NseClient.runOk, NseClient.runLog, hreq]

/-- Witness for C8: a 401 on the first attempt from a fresh module state. -/
theorem fetch_nse_price_session_recovery_witness :
    NseClient.runOk (NseClient.fetch_nse_price "TCS"
        (fun i => if i = 0 then .status 401 (.error ()) else .raise)
        (fun _ => true) ⟨none, 5, 7⟩) = true ∧
    (NseClient.runLog (NseClient.fetch_nse_price "TCS"
        (fun i => if i = 0 then .status 401 (.error ()) else .raise)
        (fun _ => true) ⟨none, 5, 7⟩)).closed.take 1
      = [(NseClient.get_client (fun _ => true) ⟨none, 5, 7⟩).1.id] ∧
    (NseClient.runLog (NseClient.fetch_nse_price "TCS"
        (fun i => if i = 0 then .status 401 (.error ()) else .raise)
        (fun _ => true) ⟨none, 5, 7⟩)).requests.take 2
      = [⟨0, (NseClient.get_client (fun _ => true) ⟨none, 5, 7⟩).1.id,
          (NseClient.get_client (fun _ => true) ⟨none, 5, 7⟩).1.hasCookies,
          (NseClient.get_client (fun _ => true) ⟨none, 5, 7⟩).2.bootstrapAttempts⟩,
         ⟨1, (NseClient.get_client (fun _ => true) ⟨none, 5, 7⟩).2.nextId,
          (fun _ => true : Nat → Bool)
            (NseClient.get_client (fun _ => true) ⟨none, 5, 7⟩).2.bootstrapAttempts,
          (NseClient.get_client (fun _ => true) ⟨none, 5, 7⟩).2.bootstrapAttempts + 1⟩] :=
  fetch_nse_price_session_recovery "TCS"
    (fun i => if i = 0 then .status 401 (.error ()) else .raise)
    (fun _ => true) ⟨none, 5, 7⟩ (.error ()) rfl

/-! ## Claim theorems: the exchange filter (C7) and totality (C9) -/

theorem YahooClient.findAccepted_some (items : List YahooClient.YQuoteItem) (s : String)
    (h : YahooClient.findAccepted items = .ok (some s)) :
    ∃ it, it ∈ items ∧ it.exchange = some "NSI" ∧ it.quoteType = some "EQUITY" ∧
      it.symbol = some s ∧ pyEndsWith s ".NS" = true := by
  induction items with
  | nil => exact absurd h (by simp [YahooClient.findAccepted])
  | cons it rest ih =>
    unfold YahooClient.findAccepted at h
    by_cases hacc : YahooClient.yahooAccept it = true
    · rw [if_pos hacc] at h
      cases hs : it.symbol with
      | none => rw [hs] at h; exact absurd h (by simp)
      | some s0 =>
        rw [hs] at h
        have hs0 : s0 = s := by
          have := h
          simp at this
          exact this
        subst hs0
        unfold YahooClient.yahooAccept at hacc
        rw [hs] at hacc
        simp only [Bool.and_eq_true, beq_iff_eq, Option.getD_some] at hacc
        exact ⟨it, List.mem_cons_self it rest, hacc.1.1, hacc.1.2, hs, hacc.2⟩
    · rw [if_neg hacc] at h
      obtain ⟨it2, hmem, hrest⟩ := ih h
      exact ⟨it2, List.mem_cons_of_mem it hmem, hrest⟩

/-- Claim C7 (amended) —: the Yahoo search client — the one the API routes use —
returns a candidate as a resolved symbol only if its exchange is `NSI`, its
quote type is `EQUITY`, and its symbol ends with `.NS`; a sole candidate
failing the filter yields absent.  (The unused NSE-client search applies no
such filter; see the counterexample.) -/
theorem yahoo_search_filter_amended :
    (∀ (items : List YahooClient.YQuoteItem) (s : String),
        YahooClient.search_nse_symbol (.status 200 (.ok items)) = .ok (some s) →
        ∃ it, it ∈ items ∧ it.exchange = some "NSI" ∧ it.quoteType = some "EQUITY" ∧
          it.symbol = some s ∧ pyEndsWith s ".NS" = true) ∧
    (∀ it : YahooClient.YQuoteItem, YahooClient.yahooAccept it = false →
        YahooClient.search_nse_symbol (.status 200 (.ok [it])) = .ok none) := by
  constructor
  · intro items s h
    unfold YahooClient.search_nse_symbol YahooClient.search_body at h
    simp only [if_neg (by omega : ¬ (200 : Nat) ≠ 200)] at h
    cases hfa : YahooClient.findAccepted items with
    | ok r =>
      rw [hfa] at h
      simp at h
      subst h
      exact YahooClient.findAccepted_some items s hfa
    | error e =>
      rw [hfa] at h
      exact absurd h (by simp)
  · intro it hacc
    unfold YahooClient.search_nse_symbol YahooClient.search_body
    simp [YahooClient.findAccepted, hacc]

/-- Witness for C7 (amended): an accepted `NSI`/`EQUITY`/`.NS` candidate is
traced back to the filter, and a sole `BSE` candidate is rejected. -/
theorem yahoo_search_filter_amended_witness :
    (∃ it, it ∈ [(⟨some "NSI", some "EQUITY", some "TCS.NS"⟩ : YahooClient.YQuoteItem)] ∧
      it.exchange = some "NSI" ∧ it.quoteType = some "EQUITY" ∧
      it.symbol = some "TCS.NS" ∧ pyEndsWith "TCS.NS" ".NS" = true) ∧
    YahooClient.search_nse_symbol
        (.status 200 (.ok [(⟨some "BSE", some "EQUITY", some "TCS.BO"⟩ :
          YahooClient.YQuoteItem)])) = .ok none :=
  ⟨yahoo_search_filter_amended.1 [⟨some "NSI", some "EQUITY", some "TCS.NS"⟩] "TCS.NS"
      (by decide),
    yahoo_search_filter_amended.2 ⟨some "BSE", some "EQUITY", some "TCS.BO"⟩ (by decide)⟩

/-- Claim C7 counterexample —: the search of the NSE client (cited by the claim)
applies no exchange/classification/suffix filter: a sole candidate whose
symbol `"TCS"` lacks the `.NS` suffix (and carries no exchange or quote-type
field at all) is returned as the resolved symbol. -/
theorem nse_search_returns_unfiltered :
    NseClient.search_nse_symbol "tcs" (.status 200 (.ok [⟨some "TCS"⟩])) (fun _ => true)
        ⟨none, 0, 0⟩
      = .ok (some "TCS", ⟨some ⟨0, true, false⟩, 1, 1⟩) ∧
    pyEndsWith "TCS" ".NS" = false := by
  constructor
  · rfl
  · decide

/-- Claim C9 —: the three core network operations are total into an
absent-capable result: for every upstream behaviour (any status code,
malformed payload, or transport error) they return `Except.ok` — no
exception reaches the caller. -/
theorem core_network_ops_never_raise :
    (∀ o : HttpOutcome (List YahooClient.YQuoteItem),
        ∃ r, YahooClient.search_nse_symbol o = .ok r) ∧
    (∀ b : YahooClient.YfBehaviour, ∃ r, YahooClient.fetch_ltp_sync b = .ok r) ∧
    (∀ (symbol : String) (resp : Nat → HttpOutcome NseClient.QuoteData)
        (bootOk : Nat → Bool) (g0 : NseClient.NseGlobals),
        ∃ out, NseClient.fetch_nse_price symbol resp bootOk g0 = .ok out) := by
  refine ⟨?_, ?_, ?_⟩
  · intro o
    unfold YahooClient.search_nse_symbol
    cases hb : YahooClient.search_body o with
    | ok r => exact ⟨r, by simp⟩
    | error e => exact ⟨none, by simp⟩
  · intro b
    unfold YahooClient.fetch_ltp_sync
    cases hb : YahooClient.ltp_body b with
    | ok r => exact ⟨r, by simp⟩
    | error e => exact ⟨none, by simp⟩
  · intro symbol resp bootOk g0
    unfold NseClient.fetch_nse_price
    exact NseClient.fetchLoop_ok resp bootOk _ _ _ _
